import Mathlib

/-!
Verification of the flowcraft-studio backend core: the Mermaid diagram
validator and the bounded, deduplicated recent-files store.

The repository contains two copies of the command layer:
`src-tauri/src/lib.rs` and `src-tauri/src/main.rs`.  The recency-store
logic is identical in both; the validator differs (the main.rs copy has
per-line bracket and node-identifier checks that the lib.rs copy lacks,
and the two registries of diagram keywords differ in letter case).  Both
validators are embedded below, in namespaces `LibRs` and `MainRs`.

Strings are modelled as Lean `String` / `List Char`; Rust standard
library helpers used by the source (`str::lines`, `trim`,
`to_lowercase`, `starts_with`, `contains`, `split`, `split_whitespace`,
`matches(c).count`) are embedded as executable functions over
`List Char`.  `to_lowercase` is embedded as ASCII lowercasing
(`Char.toLower`), which agrees with Rust on all inputs relevant to the
keyword registry.  External collaborators (file dialogs, the
filesystem, serde decoding, the mutex) are passed in as explicit
parameters holding the single outcome the source observes.
-/

namespace FlowcraftStudio

/-- RecentFile record (lib.rs lines 12-17 / main.rs lines 14-19); the
timestamp `Utc::now()` is modelled as an abstract `Nat` supplied by the
caller. -/
structure RecentFile where
  path : String
  name : String
  last_opened : Nat
deriving DecidableEq

/-- FileContent (lib.rs lines 34-38). -/
structure FileContent where
  content : String
  path : Option String
deriving DecidableEq

/-- ValidationResult (lib.rs lines 40-45). -/
structure ValidationResult where
  is_valid : Bool
  errors : List String
  warnings : List String
deriving DecidableEq

/-- Auxiliary scanner for Rust `str::lines`: accumulates the current
line (reversed) while walking the text.  A `'\n'` terminates a line and
a `'\r'` immediately before it is stripped; a final line without a
terminator is kept unless it is empty. -/
def rustLinesAux : List Char → List Char → List (List Char)
  | [], acc => if acc.isEmpty then [] else [acc.reverse]
  | c :: rest, acc =>
    if c = '\n' then
      (match acc with
        | '\r' :: acc2 => acc2.reverse
        | _ => acc.reverse) :: rustLinesAux rest []
    else
      rustLinesAux rest (c :: acc)

/-- Rust `str::lines`: split at `'\n'` (also consuming a preceding
`'\r'`); the empty string yields no lines and a trailing terminator
does not yield a final empty line. -/
def rustLines (s : List Char) : List (List Char) :=
  rustLinesAux s []

/-- Rust `str::trim`: drop whitespace from both ends. -/
def trim (l : List Char) : List Char :=
  ((l.dropWhile Char.isWhitespace).reverse.dropWhile Char.isWhitespace).reverse

/-- Rust `split_whitespace().next().unwrap_or("")`: the first maximal
run of non-whitespace characters, or the empty token. -/
def firstToken (l : List Char) : List Char :=
  (l.dropWhile Char.isWhitespace).takeWhile (fun c => !c.isWhitespace)

/-- Fuelled worker for Rust `str::split` on a (non-empty) substring
pattern: scan left to right, cut at each non-overlapping occurrence of
the pattern.  `l.length` fuel always suffices for a non-empty pattern. -/
def splitOnSubFuel (pat : List Char) : Nat → List Char → List Char → List (List Char)
  | 0, l, acc => [acc.reverse ++ l]
  | _ + 1, [], acc => [acc.reverse]
  | fuel + 1, c :: rest, acc =>
    if pat.isPrefixOf (c :: rest) then
      acc.reverse :: splitOnSubFuel pat fuel (List.drop pat.length (c :: rest)) []
    else
      splitOnSubFuel pat fuel rest (c :: acc)

/-- Rust `str::split` on a substring pattern. -/
def splitOnSub (pat l : List Char) : List (List Char) :=
  splitOnSubFuel pat l.length l []

/-- Opening delimiter count of a line: `matches('[') + matches('(') +
matches('{')` (main.rs line 224). -/
def openCount (l : List Char) : Nat :=
  l.count '[' + l.count '(' + l.count '{'

/-- Closing delimiter count of a line: `matches(']') + matches(')') +
matches('}')` (main.rs line 225). -/
def closeCount (l : List Char) : Nat :=
  l.count ']' + l.count ')' + l.count '}'

/-- Rust `str::contains` on a substring pattern: does `pat` occur
contiguously in the text? -/
def containsSub (pat : List Char) : List Char → Bool
  | [] => pat.isEmpty
  | c :: rest => pat.isPrefixOf (c :: rest) || containsSub pat rest

/-- The literal edge token `-->`. -/
def arrowSolid : List Char := "-->".data

/-- The literal edge token `---`. -/
def arrowDashes : List Char := "---".data

namespace LibRs

/-- Keyword registry of lib.rs lines 179-183: all entries lower-case. -/
def validDiagrams : List (List Char) :=
  ["graph".data, "flowchart".data, "sequencediagram".data, "classdiagram".data,
   "statediagram".data, "erdiagram".data, "journey".data, "gantt".data, "pie".data,
   "gitgraph".data, "mindmap".data, "timeline".data, "zenuml".data, "sankey".data]

/-- Diagram-type check of lib.rs lines 178-191: the warnings it
contributes for the given raw first line (trimmed and lower-cased
before matching, as in the source). -/
def typeWarningList (l0 : List Char) : List String :=
  let first_line := (trim l0).map Char.toLower
  let has_valid_start := validDiagrams.any (fun d => d.isPrefixOf first_line)
  if has_valid_start then []
  else ["Diagram type not recognized. Make sure to start with a valid diagram type."]

/-- Validator of lib.rs lines 163-198: empty-input warning, then a
single diagram-type check on the lower-cased trimmed first line; no
per-line checks. -/
def validate_mermaid_syntax (content : String) : ValidationResult :=
  let errors : List String := []
  match rustLines content.data with
  | [] =>
    { is_valid := true, errors := errors, warnings := ["Empty diagram"] }
  | l0 :: _ =>
    { is_valid := errors.isEmpty, errors := errors, warnings := typeWarningList l0 }

end LibRs

namespace MainRs

/-- Keyword registry of main.rs lines 203-207: note the mixed-case
entries `classDiagram`, `stateDiagram`, `erDiagram`, kept exactly as in
the source. -/
def validDiagrams : List (List Char) :=
  ["graph".data, "flowchart".data, "sequencediagram".data, "classDiagram".data,
   "stateDiagram".data, "erDiagram".data, "journey".data, "gantt".data, "pie".data,
   "gitgraph".data, "mindmap".data, "timeline".data, "zenuml".data, "sankey".data]

/-- Warning text of main.rs line 228. -/
def mkBracketWarn (n : Nat) : String :=
  "Line " ++ toString n ++ ": Potentially unmatched brackets"

/-- Warning text of main.rs line 241. -/
def mkNodeIdWarn (n : Nat) (node_id : List Char) : String :=
  "Line " ++ toString n ++ ": Node ID '" ++ String.mk node_id ++ "' contains spaces"

/-- Node-identifier check of main.rs lines 232-244.  The source always
splits on `-->`: the inner `let parts` recomputed from `---` (lines
234-236) is a shadowed binding in its own scope and is never read, so
it is omitted here as it has no effect. -/
def nodeIdWarns (n : Nat) (trimmed : List Char) : List String :=
  if containsSub arrowSolid trimmed || containsSub arrowDashes trimmed then
    (splitOnSub arrowSolid trimmed).filterMap (fun part =>
      let node_id := firstToken (trim part)
      if node_id.contains ' ' && !(node_id.head? == some '[')
          && !(node_id.head? == some '(') then
        some (mkNodeIdWarn n node_id)
      else none)
  else []

/-- Per-line checks of main.rs lines 220-245 for the 1-indexed line
`n`: the bracket-count warning followed by node-identifier warnings. -/
def lineWarns (n : Nat) (line : List Char) : List String :=
  let trimmed := trim line
  (if openCount trimmed ≠ closeCount trimmed then [mkBracketWarn n] else [])
    ++ nodeIdWarns n trimmed

/-- The loop of main.rs line 220: per-line checks over all lines,
numbering from `n`. -/
def lineWarnsAll : Nat → List (List Char) → List String
  | _, [] => []
  | n, l :: rest => lineWarns n l ++ lineWarnsAll (n + 1) rest

/-- Diagram-type check of main.rs lines 202-217: the warnings it
contributes for the given raw first line.  The three match forms of
line 210-212 are kept: starts with the keyword, starts with
`keyword:`, or equals the keyword. -/
def typeWarningList (l0 : List Char) : List String :=
  let first_line := (trim l0).map Char.toLower
  let has_valid_start := validDiagrams.any (fun d =>
    d.isPrefixOf first_line || (d ++ [':']).isPrefixOf first_line || first_line == d)
  if has_valid_start then []
  else ["Diagram type not clearly specified in first line"]

/-- Validator of main.rs lines 185-254: empty-input warning, the
diagram-type check (three match forms), then per-line bracket and
node-identifier checks. -/
def validate_mermaid_syntax (content : String) : ValidationResult :=
  let errors : List String := []
  match rustLines content.data with
  | [] =>
    { is_valid := true, errors := errors, warnings := ["Empty diagram"] }
  | l0 :: rest =>
    { is_valid := errors.isEmpty, errors := errors,
      warnings := typeWarningList l0 ++ lineWarnsAll 1 (l0 :: rest) }

end MainRs

/-- The recency-store mutation performed after a successful file write
or read (lib.rs lines 89-98 and 140-149, main.rs lines 96-109 and
156-169): drop any entry with the same path, insert the fresh entry at
index 0, truncate to 10.  The subsequent `save_app_state` call has its
result discarded (`let _ = ...`) and does not affect the list. -/
def record_access (p n : String) (t : Nat) (st : List RecentFile) : List RecentFile :=
  ((⟨p, n, t⟩ : RecentFile) :: st.filter (fun f => f.path != p)).take 10

/-- One recorded access: the path, display name and timestamp of a
successful save or open. -/
structure AccessOp where
  path : String
  name : String
  time : Nat
deriving DecidableEq

/-- Apply a sequence of `record_access` operations to the empty store. -/
def applyOps (ops : List AccessOp) : List RecentFile :=
  ops.foldl (fun st o => record_access o.path o.name o.time st) []

/-- Specification-side order: given the recorded paths most recent
first, keep the first (most recent) occurrence of each distinct path. -/
def mruPaths : List String → List String
  | [] => []
  | p :: rest => p :: (mruPaths rest).filter (fun x => x != p)

/-- Result of the blocking file picker collaborator: a chosen path or a
dismissal. -/
inductive DialogResult where
  | selected (path : String)
  | cancelled
deriving DecidableEq

/-- Command `save_file_content_to_disk` (lib.rs lines 56-106), with the
collaborator outcomes passed in: `dialog` is the `blocking_save_file`
result, `writeRes` the `fs::write` result, `lockOk` whether
`state.lock()` succeeds, `fileNameOf` the `file_name()` derivation.
Returns the command result together with the store after the call. -/
def save_file_content_to_disk (content : String) (path : Option String)
    (dialog : DialogResult) (writeRes : Except String Unit) (lockOk : Bool)
    (now : Nat) (fileNameOf : String → String) (st : List RecentFile) :
    Except String String × List RecentFile :=
  let pathRes : Except String String :=
    match path with
    | some p => .ok p
    | none =>
      match dialog with
      | .selected p => .ok p
      | .cancelled => .error "File save cancelled"
  match pathRes with
  | .error e => (.error e, st)
  | .ok file_path =>
    match writeRes with
    | .ok _ =>
      let st2 := if lockOk then record_access file_path (fileNameOf file_path) now st else st
      (.ok file_path, st2)
    | .error e => (.error ("Failed to save file: " ++ e), st)

/-- Command `load_file` (lib.rs lines 108-160), with collaborator
outcomes passed in: `dialog` is the `blocking_pick_file` result,
`readRes` the `fs::read_to_string` result. -/
def load_file (path : Option String) (dialog : DialogResult)
    (readRes : Except String String) (lockOk : Bool) (now : Nat)
    (fileNameOf : String → String) (st : List RecentFile) :
    Except String FileContent × List RecentFile :=
  let pathRes : Except String String :=
    match path with
    | some p => .ok p
    | none =>
      match dialog with
      | .selected p => .ok p
      | .cancelled => .error "File selection cancelled"
  match pathRes with
  | .error e => (.error e, st)
  | .ok file_path =>
    match readRes with
    | .ok content =>
      let st2 := if lockOk then record_access file_path (fileNameOf file_path) now st else st
      (.ok ⟨content, some file_path⟩, st2)
    | .error e => (.error ("Failed to read file: " ++ e), st)

/-- Command `export_diagram` (main.rs lines 362-398, identical in
lib.rs lines 239-270): format gate, save dialog, raw write of the text
bytes. -/
def export_diagram (content format : String) (dialog : DialogResult)
    (writeRes : Except String Unit) : Except String String :=
  let extension : Option String :=
    match format with
    | "png" => some "png"
    | "svg" => some "svg"
    | "pdf" => some "pdf"
    | _ => none
  match extension with
  | none => .error "Unsupported format"
  | some _ =>
    match dialog with
    | .cancelled => .error "Export cancelled"
    | .selected file_path =>
      match writeRes with
      | .ok _ => .ok file_path
      | .error e => .error ("Failed to export: " ++ e)

/-- Command `get_recent_files` (lib.rs lines 200-206). -/
def get_recent_files (lockOk : Bool) (st : List RecentFile) :
    Except String (List RecentFile) :=
  if lockOk then .ok st else .error "Failed to access app state"

/-- Command `clear_recent_files` (lib.rs lines 208-217): on a held
lock the list is cleared and the snapshot persisted (`persistRes` is
the `save_app_state` result); on a poisoned lock a generic error is
returned and the store is untouched. -/
def clear_recent_files (lockOk : Bool) (persistRes : Except String Unit)
    (st : List RecentFile) : Except String Unit × List RecentFile :=
  if lockOk then
    match persistRes with
    | .ok _ => (.ok (), [])
    | .error e => (.error ("Failed to save state: " ++ e), [])
  else (.error "Failed to access app state", st)

/-- Startup snapshot load `load_app_state` (lib.rs lines 278-291):
`stateFileExists` is `state_file.exists()`, `readRes` the
`fs::read_to_string` result, `parse` the external serde decoding of the
snapshot document. -/
def load_app_state (stateFileExists : Bool) (readRes : Except String String)
    (parse : String → Except String (List RecentFile)) :
    Except String (List RecentFile) :=
  if stateFileExists then
    match readRes with
    | .error e => .error ("Failed to read state file: " ++ e)
    | .ok content =>
      match parse content with
      | .error e => .error ("Failed to parse state file: " ++ e)
      | .ok st => .ok st
  else .ok []

/-- The store installed at process start (lib.rs line 313):
`load_app_state().unwrap_or_default()`. -/
def initial_app_state (stateFileExists : Bool) (readRes : Except String String)
    (parse : String → Except String (List RecentFile)) : List RecentFile :=
  match load_app_state stateFileExists readRes parse with
  | .ok st => st
  | .error _ => []

lemma firstToken_no_space_mem (l : List Char) : ' ' ∉ firstToken l :=
  fun hmem => absurd (List.mem_takeWhile_imp hmem) (by decide)

/-- The node-identifier check of main.rs lines 238-243 can never fire:
the candidate is the first whitespace-delimited token of the part, and
such a token cannot contain a space. -/
lemma nodeIdWarns_eq_nil (n : Nat) (t : List Char) : MainRs.nodeIdWarns n t = [] := by
  unfold MainRs.nodeIdWarns
  split
  · refine List.filterMap_eq_nil_iff.mpr (fun part _ => ?_)
    have hns := firstToken_no_space_mem (trim part)
    simp [hns]
  · rfl

/-- Claim C5: the spec says a line containing an arrow is split on the
arrow token present, the first whitespace-delimited token of each side
is taken as a node identifier, and a warning citing the line and the
identifier is emitted when the identifier contains an embedded space;
in particular "flowchart TD\nA b-->C" is said to warn about "A b".  On
the code no node-identifier warning can ever be produced (the first
whitespace-delimited token never contains a space, and the split on
"---" is a dead shadowed binding), and the quoted input produces no
warning at all from either copy of the validator. -/
theorem node_id_warning_unreachable :
    (∀ n t, MainRs.nodeIdWarns n t = [])
    ∧ (MainRs.validate_mermaid_syntax "flowchart TD\nA b-->C").warnings = []
    ∧ (LibRs.validate_mermaid_syntax "flowchart TD\nA b-->C").warnings = [] :=
  ⟨nodeIdWarns_eq_nil, by decide, by decide⟩

/-- Claim C2: for every input, both copies of the validator return an
empty error list and `is_valid = true`: no diagram content is ever
rejected. -/
theorem validator_never_errors (content : String) :
    (LibRs.validate_mermaid_syntax content).errors = []
    ∧ (LibRs.validate_mermaid_syntax content).is_valid = true
    ∧ (MainRs.validate_mermaid_syntax content).errors = []
    ∧ (MainRs.validate_mermaid_syntax content).is_valid = true := by
  cases h : rustLines content.data <;>
    simp [LibRs.validate_mermaid_syntax, MainRs.validate_mermaid_syntax, h]

/-- Claim C3: the spec says keyword matching is case-insensitive, so a
first line beginning "classDiagram" produces no diagram-type warning.
The main.rs registry keeps the mixed-case entries "classDiagram",
"stateDiagram", "erDiagram" while the first line is lower-cased, so
those entries can never match and "classDiagram" is warned about; the
lib.rs registry (all lower-case) behaves as the spec says. -/
theorem diagram_type_case_bug :
    (MainRs.validate_mermaid_syntax "classDiagram").warnings
      = ["Diagram type not clearly specified in first line"]
    ∧ (LibRs.validate_mermaid_syntax "classDiagram").warnings = [] :=
  ⟨by decide, by decide⟩

lemma string_ne_of_get? (s t : String) (i : Nat) (h : s.data[i]? ≠ t.data[i]?) :
    s ≠ t :=
  fun he => h (by rw [he])

lemma cons_append_get0 (c0 : Char) (X Y : List Char) : ((c0 :: X) ++ Y)[0]? = some c0 := by
  simp

lemma cons_append_get1 (c0 c1 : Char) (X Y : List Char) :
    ((c0 :: c1 :: X) ++ Y)[1]? = some c1 := by
  simp

lemma save_cancel_ne (e : String) : "File save cancelled" ≠ "Failed to save file: " ++ e := by
  apply string_ne_of_get? _ _ 1
  rw [String.data_append,
    show "Failed to save file: ".data = 'F' :: 'a' :: "iled to save file: ".data from rfl,
    cons_append_get1]
  decide

lemma read_cancel_ne (e : String) : "File selection cancelled" ≠ "Failed to read file: " ++ e := by
  apply string_ne_of_get? _ _ 1
  rw [String.data_append,
    show "Failed to read file: ".data = 'F' :: 'a' :: "iled to read file: ".data from rfl,
    cons_append_get1]
  decide

lemma export_cancel_ne (e : String) : "Export cancelled" ≠ "Failed to export: " ++ e := by
  apply string_ne_of_get? _ _ 0
  rw [String.data_append,
    show "Failed to export: ".data = 'F' :: 'a' :: "iled to export: ".data from rfl,
    cons_append_get0]
  decide

/-- Claim C6 counterexample: dismissing the picker does not produce an
outcome distinct from failure — save, open and export all report
cancellation through the same stringified error channel (`Err(String)`)
that I/O failures use (lib.rs lines 75, 126, main.rs line 396). -/
theorem cancellation_is_stringified_error :
    (save_file_content_to_disk "x" none .cancelled (.ok ()) true 0 id []).1
      = Except.error "File save cancelled"
    ∧ (load_file none .cancelled (.ok "y") true 0 id []).1
      = Except.error "File selection cancelled"
    ∧ export_diagram "x" "png" .cancelled (.ok ()) = Except.error "Export cancelled"
    ∧ (save_file_content_to_disk "x" (some "p") .cancelled (.error "io") true 0 id []).1
      = Except.error "Failed to save file: io" :=
  ⟨rfl, rfl, rfl, rfl⟩

/-- Claim C6 as amended: cancellation is reported in the same
stringified error channel as I/O failure, with the fixed messages
"File save cancelled", "File selection cancelled" and "Export
cancelled"; a caller can tell cancellation from I/O failure only by
comparing the message, which no I/O failure of the same operation ever
equals (those all begin with "Failed "). -/
theorem cancellation_fixed_messages (content e : String) (st : List RecentFile)
    (now : Nat) (fname : String → String) (w : Except String Unit)
    (rr : Except String String) (lockOk : Bool) :
    (save_file_content_to_disk content none .cancelled w lockOk now fname st).1
      = Except.error "File save cancelled"
    ∧ (load_file none .cancelled rr lockOk now fname st).1
      = Except.error "File selection cancelled"
    ∧ export_diagram content "png" .cancelled w = Except.error "Export cancelled"
    ∧ export_diagram content "svg" .cancelled w = Except.error "Export cancelled"
    ∧ export_diagram content "pdf" .cancelled w = Except.error "Export cancelled"
    ∧ "File save cancelled" ≠ "Failed to save file: " ++ e
    ∧ "File selection cancelled" ≠ "Failed to read file: " ++ e
    ∧ "Export cancelled" ≠ "Failed to export: " ++ e :=
  ⟨rfl, rfl, rfl, rfl, rfl, save_cancel_ne e, read_cancel_ne e, export_cancel_ne e⟩

/-- Claim C9 counterexample: when the lock is unavailable, save and
open do not return an error — they skip the recency update and still
return success (lib.rs lines 81 and 132: the `if let Ok(..)` silently
falls through). -/
theorem poisoned_lock_save_returns_ok :
    save_file_content_to_disk "x" (some "p") .cancelled (.ok ()) false 0 id []
      = (Except.ok "p", [])
    ∧ load_file (some "p") .cancelled (.ok "body") false 0 id []
      = (Except.ok ⟨"body", some "p"⟩, []) :=
  ⟨rfl, rfl⟩

/-- Claim C9 as amended: with the store lock unavailable,
`get_recent_files` and `clear_recent_files` return the generic error
"Failed to access app state" (and the store is untouched), while save
and open swallow the lock failure, leave the store unchanged and still
return success; none of the four operations panic (each is a total
function of its collaborator outcomes). -/
theorem poisoned_lock_behavior (content p c : String) (st : List RecentFile)
    (persistRes : Except String Unit) (now : Nat) (fname : String → String)
    (d : DialogResult) :
    get_recent_files false st = Except.error "Failed to access app state"
    ∧ (clear_recent_files false persistRes st).1 = Except.error "Failed to access app state"
    ∧ (clear_recent_files false persistRes st).2 = st
    ∧ save_file_content_to_disk content (some p) d (.ok ()) false now fname st
      = (Except.ok p, st)
    ∧ load_file (some p) d (.ok c) false now fname st = (Except.ok ⟨c, some p⟩, st) :=
  ⟨rfl, rfl, rfl, rfl, rfl⟩

/-- Claim C8: at startup, an absent snapshot file yields the empty
store, and a present but undecodable snapshot also yields the empty
store; `load_app_state` itself still reports the decode failure as an
error, so the swallowing happens only at the `unwrap_or_default` call
site in `run` (lib.rs line 313). -/
theorem load_app_state_resilient (rr : Except String String)
    (parse : String → Except String (List RecentFile)) (c e : String)
    (hr : rr = .ok c) (hp : parse c = .error e) :
    load_app_state false rr parse = .ok []
    ∧ initial_app_state false rr parse = []
    ∧ load_app_state true rr parse = .error ("Failed to parse state file: " ++ e)
    ∧ initial_app_state true rr parse = [] := by
  subst hr
  refine ⟨rfl, rfl, ?_, ?_⟩
  · simp [load_app_state, hp]
  · simp [initial_app_state, load_app_state, hp]

theorem load_app_state_resilient_witness :
    (Except.ok "junk" : Except String String) = Except.ok "junk"
    ∧ (fun _ : String => (Except.error "bad" : Except String (List RecentFile))) "junk"
      = Except.error "bad"
    ∧ load_app_state true (.ok "junk") (fun _ => .error "bad")
      = .error ("Failed to parse state file: " ++ "bad")
    ∧ initial_app_state true (.ok "junk") (fun _ => .error "bad") = [] :=
  ⟨rfl, rfl,
    (load_app_state_resilient (.ok "junk") (fun _ => .error "bad") "junk" "bad" rfl rfl).2.2.1,
    (load_app_state_resilient (.ok "junk") (fun _ => .error "bad") "junk" "bad" rfl rfl).2.2.2⟩

lemma count_dropWhile_eq (p : Char → Bool) (c : Char) (hc : p c = false)
    (l : List Char) : (l.dropWhile p).count c = l.count c := by
  induction l with
  | nil => rfl
  | cons x xs ih =>
    rw [List.dropWhile_cons]
    split
    · next hx =>
      have hcx : c ≠ x := by
        intro he
        rw [he, hx] at hc
        exact Bool.noConfusion hc
      rw [ih]
      simp [List.count_cons, hcx]
    · rfl

lemma count_trim_eq (c : Char) (hc : c.isWhitespace = false) (l : List Char) :
    (trim l).count c = l.count c := by
  unfold trim
  rw [List.count_reverse, count_dropWhile_eq _ _ hc, List.count_reverse,
    count_dropWhile_eq _ _ hc]

lemma openCount_trim (l : List Char) : openCount (trim l) = openCount l := by
  unfold openCount
  rw [count_trim_eq _ (by decide), count_trim_eq _ (by decide), count_trim_eq _ (by decide)]

lemma closeCount_trim (l : List Char) : closeCount (trim l) = closeCount l := by
  unfold closeCount
  rw [count_trim_eq _ (by decide), count_trim_eq _ (by decide), count_trim_eq _ (by decide)]

lemma validateLib_warnings_cons (content : String) (l0 : List Char)
    (rest : List (List Char)) (hL : rustLines content.data = l0 :: rest) :
    (LibRs.validate_mermaid_syntax content).warnings = LibRs.typeWarningList l0 := by
  unfold LibRs.validate_mermaid_syntax
  rw [hL]

lemma validateMain_warnings_cons (content : String) (l0 : List Char)
    (rest : List (List Char)) (hL : rustLines content.data = l0 :: rest) :
    (MainRs.validate_mermaid_syntax content).warnings
      = MainRs.typeWarningList l0 ++ MainRs.lineWarnsAll 1 (l0 :: rest) := by
  unfold MainRs.validate_mermaid_syntax
  rw [hL]

lemma mkBracketWarn_mem_lineWarnsAll (lines : List (List Char)) :
    ∀ (n i : Nat) (line : List Char), lines[i]? = some line →
      openCount line ≠ closeCount line →
      MainRs.mkBracketWarn (n + i) ∈ MainRs.lineWarnsAll n lines := by
  induction lines with
  | nil => intro n i line h _; simp at h
  | cons l ls ih =>
    intro n i line h hne
    cases i with
    | zero =>
      simp at h
      subst h
      have hcond : openCount (trim l) ≠ closeCount (trim l) := by
        rw [openCount_trim, closeCount_trim]
        exact hne
      simp only [MainRs.lineWarnsAll, MainRs.lineWarns, nodeIdWarns_eq_nil,
        List.append_nil, Nat.add_zero]
      rw [if_pos hcond]
      simp
    | succ j =>
      simp at h
      have hmem := ih (n + 1) j line h hne
      have harith : n + (j + 1) = (n + 1) + j := by omega
      unfold MainRs.lineWarnsAll
      rw [harith]
      exact List.mem_append_right _ hmem

/-- Claim C4 counterexample: the lib.rs copy of the validator performs
no bracket check at all; the input the spec quotes produces no warning
there, not one citing line 2. -/
theorem bracket_warning_absent_in_lib :
    (LibRs.validate_mermaid_syntax "graph TD\nA[Start --> B").warnings = [] := by
  decide

/-- Claim C4 as amended: the per-line bracket check lives in the
main.rs copy of the validator only.  There, for every 1-indexed line
whose count of opening delimiters differs from its count of closing
delimiters, a warning naming that line number is appended. -/
theorem bracket_warning_whenever_counts_differ (content : String) (i : Nat)
    (line : List Char) (h : (rustLines content.data)[i]? = some line)
    (hne : openCount line ≠ closeCount line) :
    MainRs.mkBracketWarn (i + 1) ∈ (MainRs.validate_mermaid_syntax content).warnings := by
  rcases hL : rustLines content.data with _ | ⟨l0, rest⟩
  · rw [hL] at h
    simp at h
  · rw [hL] at h
    rw [validateMain_warnings_cons content l0 rest hL]
    have hmem := mkBracketWarn_mem_lineWarnsAll (l0 :: rest) 1 i line h hne
    have harith : i + 1 = 1 + i := by omega
    rw [harith]
    exact List.mem_append_right _ hmem

theorem bracket_warning_whenever_counts_differ_witness :
    (rustLines ("graph TD\nA[Start --> B").data)[1]? = some ("A[Start --> B").data
    ∧ openCount ("A[Start --> B").data ≠ closeCount ("A[Start --> B").data
    ∧ MainRs.mkBracketWarn 2
        ∈ (MainRs.validate_mermaid_syntax "graph TD\nA[Start --> B").warnings :=
  ⟨by decide, by decide,
    bracket_warning_whenever_counts_differ "graph TD\nA[Start --> B" 1
      ("A[Start --> B").data (by decide) (by decide)⟩

lemma mem_lineWarnsAll_shape (lines : List (List Char)) :
    ∀ (n : Nat) (w : String), w ∈ MainRs.lineWarnsAll n lines →
      ∃ m, w = MainRs.mkBracketWarn m := by
  induction lines with
  | nil => intro n w h; simp [MainRs.lineWarnsAll] at h
  | cons l ls ih =>
    intro n w h
    unfold MainRs.lineWarnsAll at h
    rcases List.mem_append.mp h with h | h
    · simp only [MainRs.lineWarns, nodeIdWarns_eq_nil, List.append_nil] at h
      split at h
      · exact ⟨n, by simpa using h⟩
      · simp at h
    · exact ih (n + 1) w h

lemma mkBracketWarn_ne_empty (m : Nat) : MainRs.mkBracketWarn m ≠ "Empty diagram" := by
  intro he
  have h0 : (MainRs.mkBracketWarn m).data[0]? = some 'L' := by
    simp [MainRs.mkBracketWarn, String.data_append]
  rw [he] at h0
  exact absurd h0 (by decide)

lemma mem_ite_nil_singleton {c : Prop} [Decidable c] {a b : String}
    (h : a ∈ (if c then ([] : List String) else [b])) : a = b := by
  split at h
  · simp at h
  · simpa using h

lemma rustLinesAux_ne_nil (l : List Char) :
    ∀ acc : List Char, l ≠ [] ∨ acc ≠ [] → rustLinesAux l acc ≠ [] := by
  induction l with
  | nil =>
    intro acc h
    rcases h with h | h
    · exact absurd rfl h
    · unfold rustLinesAux
      simp [h]
  | cons c rest ih =>
    intro acc _
    unfold rustLinesAux
    by_cases hc : c = '\n'
    · simp [hc]
    · rw [if_neg hc]
      exact ih (c :: acc) (Or.inr (by simp))

lemma rustLines_ne_nil (s : String) (h : s ≠ "") : rustLines s.data ≠ [] := by
  apply rustLinesAux_ne_nil
  left
  intro hd
  exact h (String.ext (hd.trans rfl))

/-- Claim C10: the "Empty diagram" warning is produced only for the
empty input string.  Every non-empty input, including whitespace-only
content such as a single space, yields at least one line and neither
copy of the validator emits the "Empty diagram" warning for it. -/
theorem empty_diagram_warning_only_for_empty (s : String) (h : s ≠ "") :
    "Empty diagram" ∉ (LibRs.validate_mermaid_syntax s).warnings
    ∧ "Empty diagram" ∉ (MainRs.validate_mermaid_syntax s).warnings := by
  rcases hL : rustLines s.data with _ | ⟨l0, rest⟩
  · exact absurd hL (rustLines_ne_nil s h)
  · constructor
    · rw [validateLib_warnings_cons s l0 rest hL]
      intro hmem
      simp only [LibRs.typeWarningList] at hmem
      exact absurd (mem_ite_nil_singleton hmem) (by decide)
    · rw [validateMain_warnings_cons s l0 rest hL]
      intro hmem
      rcases List.mem_append.mp hmem with hmem | hmem
      · simp only [MainRs.typeWarningList] at hmem
        exact absurd (mem_ite_nil_singleton hmem) (by decide)
      · rcases mem_lineWarnsAll_shape (l0 :: rest) 1 _ hmem with ⟨m, hm⟩
        exact mkBracketWarn_ne_empty m hm.symm

theorem empty_diagram_warning_only_for_empty_witness :
    (" " : String) ≠ ""
    ∧ "Empty diagram" ∉ (LibRs.validate_mermaid_syntax " ").warnings
    ∧ "Empty diagram" ∉ (MainRs.validate_mermaid_syntax " ").warnings :=
  ⟨by decide, (empty_diagram_warning_only_for_empty " " (by decide)).1,
    (empty_diagram_warning_only_for_empty " " (by decide)).2⟩

lemma map_path_filter (st : List RecentFile) (p : String) :
    (st.filter (fun f => f.path != p)).map (fun f => f.path)
      = (st.map (fun f => f.path)).filter (fun x => x != p) := by
  induction st with
  | nil => rfl
  | cons f st ih =>
    cases hb : (f.path != p)
    · simp [List.filter_cons, hb, ih]
    · simp [List.filter_cons, hb, ih]

lemma mem_mruPaths (l : List String) (a : String) : a ∈ mruPaths l ↔ a ∈ l := by
  induction l with
  | nil => simp [mruPaths]
  | cons p rest ih =>
    simp only [mruPaths, List.mem_cons, List.mem_filter]
    constructor
    · rintro (rfl | ⟨hmem, _⟩)
      · exact Or.inl rfl
      · exact Or.inr (ih.mp hmem)
    · rintro (rfl | hmem)
      · exact Or.inl rfl
      · by_cases hap : a = p
        · exact Or.inl hap
        · exact Or.inr ⟨ih.mpr hmem, bne_iff_ne.mpr hap⟩

lemma mruPaths_nodup (l : List String) : (mruPaths l).Nodup := by
  induction l with
  | nil => simp [mruPaths]
  | cons p rest ih =>
    simp only [mruPaths]
    rw [List.nodup_cons]
    refine ⟨?_, List.Nodup.filter _ ih⟩
    intro hmem
    rcases List.mem_filter.mp hmem with ⟨_, hb⟩
    exact absurd rfl (bne_iff_ne.mp hb)

lemma filter_take_eq (p : String) (M : List String) (hM : M.Nodup) :
    ∀ n : Nat, ((M.take n).filter (fun x => x != p)).take (n - 1)
      = (M.filter (fun x => x != p)).take (n - 1) := by
  induction M with
  | nil => intro n; simp
  | cons x M' ih =>
    intro n
    rcases List.nodup_cons.mp hM with ⟨hx, hM'⟩
    cases n with
    | zero => simp
    | succ m =>
      rw [List.take_succ_cons]
      cases hb : (x != p)
      · have hxp : x = p := by
          by_contra hne
          rw [bne_iff_ne.mpr hne] at hb
          exact Bool.noConfusion hb
        subst hxp
        have hfM' : M'.filter (fun y => y != x) = M' :=
          List.filter_eq_self.mpr (fun a ha => bne_iff_ne.mpr (fun he => hx (he ▸ ha)))
        have hfT : (M'.take m).filter (fun y => y != x) = M'.take m :=
          List.filter_eq_self.mpr
            (fun a ha => bne_iff_ne.mpr (fun he => hx (he ▸ List.mem_of_mem_take ha)))
        simp [List.filter_cons, hb, hfM', hfT, List.take_take]
      · cases m with
        | zero => simp
        | succ k =>
          have htail := ih hM' (k + 1)
          simp only [Nat.add_sub_cancel] at htail
          simp only [List.filter_cons, hb, if_true, Nat.add_sub_cancel]
          rw [List.take_succ_cons, List.take_succ_cons, htail]

lemma applyOps_paths (ops : List AccessOp) :
    (applyOps ops).map (fun f => f.path)
      = (mruPaths ((ops.map (fun o => o.path)).reverse)).take 10 := by
  induction ops using List.reverseRecOn with
  | nil => rfl
  | append_singleton ops op ih =>
    have h1 : applyOps (ops ++ [op]) = record_access op.path op.name op.time (applyOps ops) := by
      simp [applyOps, List.foldl_append]
    rw [h1]
    simp only [record_access, List.map_take, List.map_cons, map_path_filter]
    rw [ih]
    have hR : ((ops ++ [op]).map (fun o => o.path)).reverse
        = op.path :: (ops.map (fun o => o.path)).reverse := by
      simp
    rw [hR]
    simp only [mruPaths]
    have hcons : ∀ (a : String) (L : List String), (a :: L).take 10 = a :: L.take 9 :=
      fun a L => rfl
    rw [hcons, hcons]
    congr 1
    exact filter_take_eq op.path _ (mruPaths_nodup _) 10

lemma mruPaths_toFinset (l : List String) : (mruPaths l).toFinset = l.toFinset := by
  ext a
  simp [List.mem_toFinset, mem_mruPaths]

lemma mruPaths_length (l : List String) : (mruPaths l).length = l.toFinset.card := by
  rw [← List.toFinset_card_of_nodup (mruPaths_nodup l), mruPaths_toFinset]

/-- Claim C1: starting from the empty store, any sequence of
`record_access` operations leaves the recent-files list with no
duplicate path, at most 10 entries, and the list of paths equal to the
most-recently-recorded-first sequence of distinct paths truncated to
10; when more than 10 distinct paths were recorded, the list has
exactly 10 entries — the 10 most recently recorded distinct paths,
most recent at index 0. -/
theorem recent_files_bounded_dedup_mru (ops : List AccessOp) :
    ((applyOps ops).map (fun f => f.path)).Nodup
    ∧ (applyOps ops).length ≤ 10
    ∧ (applyOps ops).map (fun f => f.path)
        = (mruPaths ((ops.map (fun o => o.path)).reverse)).take 10
    ∧ (10 < ((ops.map (fun o => o.path)).toFinset).card → (applyOps ops).length = 10) := by
  have hid := applyOps_paths ops
  have hlenmap : (applyOps ops).length = ((applyOps ops).map (fun f => f.path)).length :=
    (List.length_map _ _).symm
  refine ⟨?_, ?_, hid, ?_⟩
  · rw [hid]
    exact List.Nodup.sublist (List.take_sublist 10 _) (mruPaths_nodup _)
  · rw [hlenmap, hid, List.length_take]
    omega
  · intro hcard
    have hlen : (mruPaths ((ops.map (fun o => o.path)).reverse)).length
        = (ops.map (fun o => o.path)).toFinset.card := by
      rw [mruPaths_length, List.toFinset_reverse]
    rw [hlenmap, hid, List.length_take]
    omega

/-- Eleven accesses to eleven distinct paths, used to exercise the
truncation bound. -/
def elevenOps : List AccessOp :=
  [⟨"a", "a", 0⟩, ⟨"b", "b", 1⟩, ⟨"c", "c", 2⟩, ⟨"d", "d", 3⟩, ⟨"e", "e", 4⟩,
   ⟨"f", "f", 5⟩, ⟨"g", "g", 6⟩, ⟨"h", "h", 7⟩, ⟨"i", "i", 8⟩, ⟨"j", "j", 9⟩,
   ⟨"k", "k", 10⟩]

theorem recent_files_bounded_dedup_mru_witness :
    10 < ((elevenOps.map (fun o => o.path)).toFinset).card
    ∧ (applyOps elevenOps).length = 10 :=
  ⟨by decide, (recent_files_bounded_dedup_mru elevenOps).2.2.2 (by decide)⟩

lemma filter_ne_length_of_nodup (p : String) (L : List String) (hn : L.Nodup)
    (hp : p ∈ L) : (L.filter (fun x => x != p)).length + 1 = L.length := by
  induction L with
  | nil => simp at hp
  | cons x L' ih =>
    rcases List.nodup_cons.mp hn with ⟨hx, hL'⟩
    rcases List.mem_cons.mp hp with rfl | hp'
    · have hb : (p != p) = false := by simp
      have hfL' : L'.filter (fun y => y != p) = L' :=
        List.filter_eq_self.mpr (fun a ha => bne_iff_ne.mpr (fun he => hx (he ▸ ha)))
      simp [List.filter_cons, hb, hfL']
    · have hxp : x ≠ p := fun he => hx (he ▸ hp')
      have hb : (x != p) = true := bne_iff_ne.mpr hxp
      have := ih hL' hp'
      simp [List.filter_cons, hb]
      omega

/-- Claim C7: if the store already holds an entry for path `p` (and
satisfies the store invariants), re-recording `p` leaves the length
unchanged, places the entry for `p` at index 0 carrying the fresh
timestamp, and keeps the paths duplicate-free. -/
theorem record_access_promotes_existing (p nm : String) (t : Nat) (st : List RecentFile)
    (hn : (st.map (fun f => f.path)).Nodup) (hlen : st.length ≤ 10)
    (hp : p ∈ st.map (fun f => f.path)) :
    (record_access p nm t st).length = st.length
    ∧ (record_access p nm t st).head? = some ⟨p, nm, t⟩
    ∧ ((record_access p nm t st).map (fun f => f.path)).Nodup := by
  have hfl : ((st.map (fun f => f.path)).filter (fun x => x != p)).length + 1
      = (st.map (fun f => f.path)).length :=
    filter_ne_length_of_nodup p _ hn hp
  have hflst : (st.filter (fun f => f.path != p)).length + 1 = st.length := by
    have h1 : (st.filter (fun f => f.path != p)).length
        = ((st.filter (fun f => f.path != p)).map (fun f => f.path)).length :=
      (List.length_map _ _).symm
    rw [h1, map_path_filter]
    rw [List.length_map] at hfl
    exact hfl
  refine ⟨?_, ?_, ?_⟩
  · unfold record_access
    rw [List.length_take]
    simp only [List.length_cons]
    omega
  · rfl
  · simp only [record_access, List.map_take, List.map_cons, map_path_filter]
    refine List.Nodup.sublist (List.take_sublist 10 _) ?_
    rw [List.nodup_cons]
    constructor
    · intro hmem
      rcases List.mem_filter.mp hmem with ⟨_, hb⟩
      exact absurd rfl (bne_iff_ne.mp hb)
    · exact List.Nodup.filter _ hn

theorem record_access_promotes_existing_witness :
    (([⟨"a", "x", 0⟩, ⟨"b", "y", 1⟩] : List RecentFile).map (fun f => f.path)).Nodup
    ∧ ([⟨"a", "x", 0⟩, ⟨"b", "y", 1⟩] : List RecentFile).length ≤ 10
    ∧ "b" ∈ ([⟨"a", "x", 0⟩, ⟨"b", "y", 1⟩] : List RecentFile).map (fun f => f.path)
    ∧ (record_access "b" "z" 5 [⟨"a", "x", 0⟩, ⟨"b", "y", 1⟩]).length
        = ([⟨"a", "x", 0⟩, ⟨"b", "y", 1⟩] : List RecentFile).length
    ∧ (record_access "b" "z" 5 [⟨"a", "x", 0⟩, ⟨"b", "y", 1⟩]).head?
        = some ⟨"b", "z", 5⟩ :=
  ⟨by decide, by decide, by decide,
    (record_access_promotes_existing "b" "z" 5 _ (by decide) (by decide) (by decide)).1,
    (record_access_promotes_existing "b" "z" 5 _ (by decide) (by decide) (by decide)).2.1⟩

end FlowcraftStudio
